import Mathlib

/-!
Verification of the result-normalization and scoring engine of the
`python-geoaddress` repository (`src/geoaddress/providers/__init__.py` and the
provider adapters), via a shallow embedding.

Modelling conventions:
* Python strings are lists of Unicode code points (`PyStr := List Nat`).
* Python floats are modelled as exact rationals (`ℚ`); `round(x, 2)` is
  modelled as round-half-to-even at two decimals (`round2`).
* Python dictionaries whose keys are strings are association lists; lookup
  takes the first binding (Python dicts have unique keys).
* Fallible code returns `PRes` (`ok` or a raised exception); exceptions the
  source catches locally are folded into `Option` where no other outcome is
  observable.
* `unicodedata` (NFD decomposition, the `Mn` category) and `str.lower` are
  external collaborators; they are modelled by a table that is faithful on the
  character repertoire used in this development (ASCII plus à/ç/é and À/Ç/É
  and the combining marks U+0300–U+036F, which are exactly category `Mn`).
* The float haversine (`math.sin`/`cos`/`atan2`/`sqrt`) has no computable
  exact model; the relevance scorer therefore takes the distance routine as
  an explicit parameter (`DistFn`), and all relevance theorems hold for every
  such routine.  The mathematical properties claimed of the haversine itself
  are proved on its real-valued model `distanceKmR`.
-/

attribute [local semireducible] Rat.mul Rat.inv Rat.add Rat.sub Rat.ofScientific

/-- A Python string: a list of Unicode code points. -/
abbrev PyStr := List Nat

/-- Code points of a Lean string literal, for writing concrete Python strings. -/
def cp (s : String) : PyStr := s.data.map Char.toNat

/-- Python values as they occur in the records handled by the engine:
`None`, strings, numbers (ints and floats, modelled as `ℚ`) and nested
string-keyed dictionaries. -/
inductive PyVal : Type where
  | none : PyVal
  | str (s : PyStr) : PyVal
  | num (q : ℚ) : PyVal
  | dict (d : List (PyStr × PyVal)) : PyVal

mutual

/-- Decidable equality on `PyVal` (structural). -/
def PyVal.decEqFn : (a b : PyVal) → Decidable (a = b)
  | .none, .none => isTrue rfl
  | .none, .str _ => isFalse nofun
  | .none, .num _ => isFalse nofun
  | .none, .dict _ => isFalse nofun
  | .str _, .none => isFalse nofun
  | .str s, .str t =>
      match decEq s t with
      | isTrue h => isTrue (by rw [h])
      | isFalse h => isFalse (fun hh => by cases hh; exact h rfl)
  | .str _, .num _ => isFalse nofun
  | .str _, .dict _ => isFalse nofun
  | .num _, .none => isFalse nofun
  | .num _, .str _ => isFalse nofun
  | .num a, .num b =>
      match decEq a b with
      | isTrue h => isTrue (by rw [h])
      | isFalse h => isFalse (fun hh => by cases hh; exact h rfl)
  | .num _, .dict _ => isFalse nofun
  | .dict _, .none => isFalse nofun
  | .dict _, .str _ => isFalse nofun
  | .dict _, .num _ => isFalse nofun
  | .dict d, .dict e =>
      match pairsDecEqFn d e with
      | isTrue h => isTrue (by rw [h])
      | isFalse h => isFalse (fun hh => by cases hh; exact h rfl)

/-- Decidable equality on association lists of `PyVal`s. -/
def pairsDecEqFn : (d e : List (PyStr × PyVal)) → Decidable (d = e)
  | [], [] => isTrue rfl
  | [], _ :: _ => isFalse nofun
  | _ :: _, [] => isFalse nofun
  | (k, v) :: t, (k2, v2) :: t2 =>
      match decEq k k2 with
      | isFalse h => isFalse (fun hh => by cases hh; exact h rfl)
      | isTrue h1 =>
        match PyVal.decEqFn v v2 with
        | isFalse h => isFalse (fun hh => by cases hh; exact h rfl)
        | isTrue h2 =>
          match pairsDecEqFn t t2 with
          | isFalse h => isFalse (fun hh => by cases hh; exact h rfl)
          | isTrue h3 => isTrue (by rw [h1, h2, h3])

end

instance : DecidableEq PyVal := PyVal.decEqFn

/-- A string-keyed Python dictionary. -/
abbrev PyDict := List (PyStr × PyVal)

/-- First binding for a key in an association list (Python dict lookup). -/
def lookupKV {α : Type} : List (PyStr × α) → PyStr → Option α
  | [], _ => Option.none
  | (a, b) :: t, k => if a = k then Option.some b else lookupKV t k

/-- Python `d.get(k)`: the stored value, or `None` when the key is absent. -/
def pyGet (d : PyDict) (k : PyStr) : PyVal := (lookupKV d k).getD PyVal.none

/-- Python `d.get(k, default)`. -/
def pyGetD (d : PyDict) (k : PyStr) (dflt : PyVal) : PyVal := (lookupKV d k).getD dflt

/-- Python truthiness for the modelled values. -/
def PyVal.truthy : PyVal → Bool
  | .none => false
  | .str s => !s.isEmpty
  | .num q => decide (q ≠ 0)
  | .dict d => !d.isEmpty

/-- Python `d.get(k) or ""`. -/
def pyGetOr (d : PyDict) (k : PyStr) : PyVal :=
  let v := pyGet d k
  if v.truthy then v else PyVal.str []

def PyVal.isNone : PyVal → Bool
  | .none => true
  | _ => false

def PyVal.isNum : PyVal → Bool
  | .num _ => true
  | _ => false

def PyVal.isDict : PyVal → Bool
  | .dict _ => true
  | _ => false

/-- Exceptions raised by the modelled code. -/
inductive PyExc : Type where
  | typeError : PyExc
  | valueError : PyExc
  | attributeError : PyExc
deriving DecidableEq

/-- Result of running a fallible piece of Python code. -/
inductive PRes (α : Type) : Type where
  | ok (val : α) : PRes α
  | err (exc : PyExc) : PRes α
deriving DecidableEq

def PRes.map {α β : Type} (f : α → β) : PRes α → PRes β
  | .ok a => .ok (f a)
  | .err e => .err e

/-! ### Rounding: Python `round(x, 2)` on exact rationals (round half to even) -/

/-- Round a rational to the nearest integer, halves to the even neighbour
(the rounding Python `round` applies). -/
def roundHalfEven (x : ℚ) : ℤ :=
  let n := x.floor
  let f := x - n
  if f < 1/2 then n
  else if 1/2 < f then n + 1
  else if Even n then n else n + 1

/-- Python `round(float(x), 2)` (the `_round_score` helper). -/
def round2 (x : ℚ) : ℚ := ((roundHalfEven (x * 100) : ℤ) : ℚ) / 100

/-! ### String normalization (`_normalize_string_for_comparison`, source lines 30–37)

`str.lower`, `str.split()` (whitespace split), `unicodedata.normalize("NFD", ·)`
and `unicodedata.category(·) == "Mn"` are modelled at the code-point level.
The lower/NFD tables are faithful on ASCII plus the accented letters used in
this development (à, ç, é and their upper-case forms); `isMnCp` is the
combining-diacritical block U+0300–U+036F, which consists exactly of
category-`Mn` characters. -/

/-- Whitespace for Python `str.split()` (ASCII whitespace suffices for the
repertoire modelled here). -/
def isWsCp (c : Nat) : Bool := c = 32 || c = 9 || c = 10 || c = 13 || c = 11 || c = 12

/-- Python `str.lower` per code point (ASCII plus À, Ç, É). -/
def pyLowerCp (c : Nat) : Nat :=
  if 65 ≤ c ∧ c ≤ 90 then c + 32
  else if c = 192 then 224
  else if c = 199 then 231
  else if c = 201 then 233
  else c

/-- Unicode NFD decomposition per code point (identity outside the table). -/
def nfdCp (c : Nat) : List Nat :=
  if c = 224 then [97, 768]
  else if c = 231 then [99, 807]
  else if c = 233 then [101, 769]
  else if c = 192 then [65, 768]
  else if c = 199 then [67, 807]
  else if c = 201 then [69, 769]
  else [c]

/-- Category `Mn` (nonspacing combining marks): the U+0300–U+036F block. -/
def isMnCp (c : Nat) : Bool := 768 ≤ c && c ≤ 879

/-- Auxiliary for whitespace splitting: current partial token is `acc` (reversed). -/
def splitWsAux : PyStr → PyStr → List PyStr
  | [], acc => if acc.isEmpty then [] else [acc.reverse]
  | c :: s, acc =>
      if isWsCp c then
        if acc.isEmpty then splitWsAux s [] else acc.reverse :: splitWsAux s []
      else splitWsAux s (c :: acc)

/-- Python `str.split()` with no argument: split on whitespace runs, no empties. -/
def pySplitWs (s : PyStr) : List PyStr := splitWsAux s []

/-- Python `" ".join(parts)`. -/
def joinSp : List PyStr → PyStr
  | [] => []
  | [p] => p
  | p :: ps => p ++ 32 :: joinSp ps

/-- Python `" ".join(text.split())`: collapse whitespace runs, trim. -/
def collapseWs (s : PyStr) : PyStr := joinSp (pySplitWs s)

def lowerStr (s : PyStr) : PyStr := s.map pyLowerCp

def nfdStr (s : PyStr) : PyStr := (s.map nfdCp).flatten

def stripMn (s : PyStr) : PyStr := s.filter (fun c => !isMnCp c)

/-- `GeoaddressProvider._normalize_string_for_comparison`.  The argument is the
`PyVal` the call sites pass (`d.get(k) or ""`); `text.lower()` on a truthy
non-string raises `AttributeError`. -/
def normStrCmp (v : PyVal) : PRes PyStr :=
  if !v.truthy then .ok []
  else
    match v with
    | .str s => .ok (stripMn (nfdStr (collapseWs (lowerStr s))))
    | _ => .err .attributeError

/-! ### Field catalog (`GEOADDRESS_FIELDS_DESCRIPTIONS`, `src/geoaddress/__init__.py`) -/

/-- The canonical field names, in catalog declaration order. -/
def fieldsCatalog : List PyStr :=
  [cp "text", cp "reference", cp "address_line1", cp "address_line2", cp "address_line3",
   cp "city", cp "postal_code", cp "state", cp "region", cp "country", cp "country_code",
   cp "municipality", cp "neighbourhood", cp "address_type", cp "latitude", cp "longitude",
   cp "osm_id", cp "osm_type", cp "confidence", cp "relevance", cp "backend",
   cp "backend_name", cp "geoaddress_id"]

/-! ### Python `float(x)` on the modelled values

`float` of a number is itself; `float` of a string parses an optionally signed
decimal literal (the repertoire of numeric strings modelled here); `float` of
`None` or a dict raises, which every modelled call site catches — so the
conversion is folded into `Option`. -/

/-- ASCII digit (the digits of the modelled repertoire). -/
def isDigitCp (c : Nat) : Bool := 48 ≤ c && c ≤ 57

def digitsToNat (s : PyStr) : ℚ := s.foldl (fun a c => a * 10 + ((c : ℚ) - 48)) 0

def parseUnsignedFloat (s : PyStr) : Option ℚ :=
  let ip := s.takeWhile isDigitCp
  let rest := s.dropWhile isDigitCp
  match rest with
  | [] => if ip.isEmpty then Option.none else Option.some (digitsToNat ip)
  | 46 :: fr =>
      let fp := fr.takeWhile isDigitCp
      let rest2 := fr.dropWhile isDigitCp
      if ¬rest2.isEmpty then Option.none
      else if ip.isEmpty ∧ fp.isEmpty then Option.none
      else Option.some (digitsToNat ip + digitsToNat fp / (10 : ℚ) ^ fp.length)
  | _ => Option.none

def pyFloatOpt (v : PyVal) : Option ℚ :=
  match v with
  | .num q => Option.some q
  | .str s =>
      let t := ((s.dropWhile isWsCp).reverse.dropWhile isWsCp).reverse
      match t with
      | 43 :: r => parseUnsignedFloat r
      | 45 :: r => (parseUnsignedFloat r).map Neg.neg
      | r => parseUnsignedFloat r
  | _ => Option.none

/-! ### Relevance scorer (`_calculate_relevance_score` / `_calculate_relevance`,
source lines 121–192) -/

/-- Weight tables are Python `dict[str, float]`. -/
abbrev Weights := List (PyStr × ℚ)

/-- Python `weights.get(k, 0)`. -/
def wget (w : Weights) (k : PyStr) : ℚ := (lookupKV w k).getD 0

def streetK : PyStr := cp "street"
def postcodeK : PyStr := cp "postcode"
def cityWK : PyStr := cp "city"
def distanceK : PyStr := cp "distance"
def line1K : PyStr := cp "address_line1"
def postK : PyStr := cp "postal_code"
def latK : PyStr := cp "latitude"
def lonK : PyStr := cp "longitude"

/-- The default weight table (source line 160). -/
def defaultWeights : Weights := [(streetK, 3), (postcodeK, 2), (cityWK, 3/2), (distanceK, 1)]

/-- The city-like keys probed in order (source line 139). -/
def cityKeys : List PyStr := [cp "city", cp "village", cp "town", cp "municipality"]

/-- Python `next((d.get(k) for k in keys if d.get(k)), "")`. -/
def firstTruthy (d : PyDict) : List PyStr → PyVal
  | [] => .str []
  | k :: t => if (pyGet d k).truthy then pyGet d k else firstTruthy d t

/-- Is `n` a contiguous sublist of `h` (Python `in` on strings)? -/
def startsWithCp : PyStr → PyStr → Bool
  | [], _ => true
  | _ :: _, [] => false
  | a :: n, b :: h => a = b && startsWithCp n h

def substrOf (n h : PyStr) : Bool :=
  match h with
  | [] => n.isEmpty
  | _ :: h2 => startsWithCp n h || substrOf n h2

/-- `GeoaddressProvider._calculate_relevance_score`. -/
def calcRelevanceScore (q r : PyDict) (w : Weights) : PRes ℚ :=
  match normStrCmp (pyGetOr q line1K), normStrCmp (pyGetOr r line1K) with
  | .err e, _ => .err e
  | _, .err e => .err e
  | .ok qs, .ok rs =>
    let s1 : ℚ := if qs = rs then wget w streetK else 0
    match normStrCmp (pyGetOr q postK), normStrCmp (pyGetOr r postK) with
    | .err e, _ => .err e
    | _, .err e => .err e
    | .ok qp, .ok rp =>
      let s2 : ℚ := if qp = rp then wget w postcodeK else 0
      let qc := firstTruthy q cityKeys
      let rc := firstTruthy r cityKeys
      if qc.truthy && rc.truthy then
        match normStrCmp qc, normStrCmp rc with
        | .err e, _ => .err e
        | _, .err e => .err e
        | .ok qn, .ok rn =>
            .ok (s1 + s2 +
              (if qn = rn || substrOf qn rn || substrOf rn qn then wget w cityWK else 0))
      else .ok (s1 + s2)

/-- The float haversine routine `_calculate_distance_km`, as called from the
relevance scorer.  Exact float trigonometry has no computable model, so the
scorer is parametric in it; every relevance theorem below holds for all
`DistFn`.  The mathematical claims about the routine itself are proved on the
real-valued model `distanceKmR`. -/
abbrev DistFn := ℚ → ℚ → ℚ → ℚ → ℚ

/-- The condition guarding the distance bonus (source lines 165–171). -/
def canCalcDistance (r : PyDict) (qlat qlon : Option ℚ) (incl : Bool) : Bool :=
  incl && qlat.isSome && qlon.isSome && !(pyGet r latK).isNone && !(pyGet r lonK).isNone

/-- The accumulated `max_score` of `_calculate_relevance` (lines 163 and 174):
street + postcode + city weights, plus the distance weight whenever the
distance branch is entered. -/
def relevanceMaxScore (r : PyDict) (qlat qlon : Option ℚ) (w : Weights) (incl : Bool) : ℚ :=
  wget w streetK + wget w postcodeK + wget w cityWK +
    (if canCalcDistance r qlat qlon incl then wget w distanceK else 0)

/-- The accumulated `score` of `_calculate_relevance` after the distance
bonus (lines 162 and 173–186): `float()` failures inside the `try` are caught
and the bonus is skipped. -/
def relevanceRawScore (dist : DistFn) (q r : PyDict) (qlat qlon : Option ℚ)
    (w : Weights) (incl : Bool) : PRes ℚ :=
  match calcRelevanceScore q r w with
  | .err e => .err e
  | .ok base =>
    if canCalcDistance r qlat qlon incl then
      match pyFloatOpt (pyGet r latK), pyFloatOpt (pyGet r lonK) with
      | Option.some la, Option.some lo =>
          .ok (base + wget w distanceK * (1 / (dist (qlat.getD 0) (qlon.getD 0) la lo + 1)))
      | _, _ => .ok base
    else .ok base

/-- `GeoaddressProvider._calculate_relevance`. -/
def calcRelevance (dist : DistFn) (q r : PyDict) (qlat qlon : Option ℚ)
    (wOpt : Option Weights) (incl : Bool) : PRes ℚ :=
  let w := wOpt.getD defaultWeights
  match relevanceRawScore dist q r qlat qlon w incl with
  | .err e => .err e
  | .ok s =>
    let M := relevanceMaxScore r qlat qlon w incl
    .ok (if 0 < M then round2 (min 100 (max 0 (s / M * 100))) else 0)

/-! ### Dot-path navigation (`_get_nested_value`, source lines 48–60, and the
path walk of `_extract_importance`, lines 62–72) -/

/-- Python `s.split(sep)` with an explicit separator (keeps empty pieces). -/
def splitSepAux (sep : Nat) : PyStr → PyStr → List PyStr
  | [], acc => [acc.reverse]
  | c :: s, acc => if c = sep then acc.reverse :: splitSepAux sep s [] else splitSepAux sep s (c :: acc)

def splitSep (sep : Nat) (s : PyStr) : List PyStr := splitSepAux sep s []

/-- The loop shared by `_get_nested_value` and `_extract_importance`:
walk the keys, treating a non-dict intermediate or a `None` value as missing. -/
def nestGo : PyVal → List PyStr → Option PyVal
  | v, [] => Option.some v
  | v, k :: ks =>
      let v2 := match v with
        | .dict d => pyGet d k
        | _ => PyVal.none
      if v2.isNone then Option.none else nestGo v2 ks

/-- `GeoaddressProvider._get_nested_value` (default `None`). -/
def getNestedValue (data : PyDict) (path : PyStr) : PyVal :=
  if path.isEmpty then PyVal.none
  else (nestGo (.dict data) (splitSep 46 path)).getD PyVal.none

/-! ### Confidence estimator (source lines 62–119) -/

def importanceK : PyStr := cp "importance"
def propertiesK : PyStr := cp "properties"

/-- `GeoaddressProvider._extract_importance`. -/
def extractImportance (feature : Option PyDict) (ikey : Option PyStr) : Option PyVal :=
  match feature, ikey with
  | Option.some d, Option.some ks =>
      if d.isEmpty ∨ ks.isEmpty then Option.none
      else nestGo (.dict d) (splitSep 46 ks)
  | _, _ => Option.none

/-- The fallback `feature.get("importance") or feature.get("properties", {}).get("importance")`
(source line 111); `.get` on a non-dict `properties` value raises. -/
def fallbackImportance (f : PyDict) : PRes PyVal :=
  let first := pyGet f importanceK
  if first.truthy then .ok first
  else
    match pyGetD f propertiesK (.dict []) with
    | .dict d => .ok (pyGet d importanceK)
    | _ => .err .attributeError

/-- Lines 109–111 of `_calculate_confidence`: the resolved importance signal
(`PyVal.none` standing for Python `None`). -/
def resolveImportance (feature : Option PyDict) (ikey : Option PyStr) : PRes PyVal :=
  match extractImportance feature ikey with
  | Option.some v => .ok v
  | Option.none =>
      match feature with
      | Option.some f => if f.isEmpty then .ok .none else fallbackImportance f
      | Option.none => .ok .none

/-- `GeoaddressProvider._calculate_confidence_from_importance`: `None` when the
value is a dict, fails to convert, or yields a confidence below 0.3. -/
def confFromImportance (v : PyVal) (mult : ℚ) : Option ℚ :=
  match v with
  | .dict _ => Option.none
  | _ =>
    match pyFloatOpt v with
    | Option.none => Option.none
    | Option.some x =>
        let c := min (x * mult) 1
        if 3/10 ≤ c then Option.some (round2 (max 0 c)) else Option.none

/-- Python `any(c.isdigit() for c in v)`: per-character digit test on a string,
whole-key `str.isdigit` on a dict's keys, `TypeError` on a non-iterable. -/
def pyValAnyDigit : PyVal → PRes Bool
  | .str s => .ok (s.any isDigitCp)
  | .dict d => .ok (d.any (fun kv => !kv.1.isEmpty && kv.1.all isDigitCp))
  | _ => .err .typeError

def cityK : PyStr := cp "city"

/-- `GeoaddressProvider._calculate_confidence_heuristic`. -/
def heuristicConf (n : PyDict) : PRes ℚ :=
  let a := pyGetOr n line1K
  let c := pyGetOr n cityK
  let p := pyGetOr n postK
  if a.truthy then
    match pyValAnyDigit a with
    | .err e => .err e
    | .ok true => .ok (9/10)
    | .ok false => .ok (7/10)
  else if c.truthy || p.truthy then .ok (1/2)
  else .ok (3/10)

/-- The `if not isinstance(normalized, dict): normalized = {}` guard. -/
def asConfDict : PyVal → PyDict
  | .dict d => d
  | _ => []

/-- `GeoaddressProvider._calculate_confidence`. -/
def calcConfidence (normalized : PyVal) (feature : Option PyDict) (ikey : Option PyStr)
    (mult : ℚ) : PRes ℚ :=
  let n := asConfDict normalized
  match resolveImportance feature ikey with
  | .err e => .err e
  | .ok imp =>
    let conf := if imp.isNone then Option.none else confFromImportance imp mult
    match conf with
    | Option.some c => .ok c
    | Option.none => (heuristicConf n).map round2

/-! ### Mapping normalizer and field ordering (source lines 211–232) -/

/-- A value of a field-mapping table: a callable applied to the raw payload,
or a plain value (a dotted-path string, a constant string, or any constant). -/
inductive MapSrc : Type where
  | fn (g : PyDict → PyVal) : MapSrc
  | val (v : PyVal) : MapSrc

def hasDotCp (s : PyStr) : Bool := s.contains 46

/-- The per-field dispatch of `_normalize_from_mapping` (lines 218–223). -/
def applyMapSrc (data : PyDict) : MapSrc → PyVal
  | .fn g => g data
  | .val (.str s) => if hasDotCp s then getNestedValue data s else .str s
  | .val v => v

/-- `GeoaddressProvider._normalize_from_mapping`: iterate the catalog in order,
skip fields absent from the mapping, dispatch on the mapping value. -/
def normalizeFromMapping (data : PyDict) (mapping : List (PyStr × MapSrc)) : PyDict :=
  fieldsCatalog.filterMap
    (fun tf => (lookupKV mapping tf).map (fun src => (tf, applyMapSrc data src)))

/-- `GeoaddressProvider._order_normalized_fields`. -/
def orderNormalizedFields (n : PyDict) : PyDict :=
  fieldsCatalog.filterMap (fun f => (lookupKV n f).map (fun v => (f, v)))

/-! ### Adapter failure handling (`geoapify.py`, `nominatim.py`)

The adapters' error handling is control flow around an external HTTP call.
What decides the error-handling claim is name resolution and the
`try`/`except` structure: `geoapify.py` (like most adapters) never imports
`requests`, so the first statement of the `try` body raises `NameError`, and
the first `except` clause — `except requests.exceptions.RequestException` —
itself evaluates the unbound name `requests` and raises `NameError` out of the
function.  `nominatim.py` ends in a bare `except Exception: return []`, which
does catch, but returns `[]` regardless of `raw`. -/

/-- Outcome of calling a Python function: a return value, or an exception
escaping to the caller. -/
inductive PyCallResult (α : Type) : Type where
  | ok (val : α) : PyCallResult α
  | raised (msg : String) : PyCallResult α
deriving DecidableEq

/-- The names bound at module scope of `geoapify.py` (its `import` statements:
`from __future__ import annotations`, `import time`, `from typing import Any`,
`from . import GeoaddressProvider`).  `requests` is absent. -/
def geoapifyGlobals : List String := ["annotations", "time", "Any", "GeoaddressProvider"]

def nameBound (globals : List String) (n : String) : Bool := globals.contains n

/-- What `GeoapifyProvider.search_addresses` does once an exception leaves the
`try` body: with `requests` unbound, evaluating the first `except` clause
raises `NameError` again, which escapes; were the name bound, the handlers
would return the error record (`raw`) or `[]`. -/
def geoapifySearchOnFailure (raw : Bool) (excMsg : String) : PyCallResult (List PyDict) :=
  if nameBound geoapifyGlobals "requests" then
    .ok (if raw then [[(cp "error", .str (cp excMsg))]] else [])
  else .raised "NameError: name requests is not defined"

/-- `GeoapifyProvider.search_addresses` (source lines 99–186): the credential
guard, then the `try` body whose first effective statement is
`requests.get(...)` — a `NameError`, since `geoapify.py` never imports
`requests`.  The external-HTTP path (unreachable here) is not modelled
further. -/
def geoapifySearchAddresses (apiKeyConfigured raw : Bool) : PyCallResult (List PyDict) :=
  if !apiKeyConfigured then
    .ok (if raw then [[(cp "error", .str (cp "GEOAPIFY_API_KEY not configured"))]] else [])
  else if nameBound geoapifyGlobals "requests" then
    .ok []
  else geoapifySearchOnFailure raw "name requests is not defined"

/-- What `NominatimProvider.search_addresses` does when any exception is
raised in its `try` body (network failure, parse failure, or the `NameError`
from the missing `requests` import): the final `except Exception: return []`
catches everything and returns `[]`, whatever `raw` is (source lines
128–129). -/
def nominatimSearchOnFailure (_raw : Bool) (_excMsg : String) : PyCallResult (List PyDict) :=
  .ok []

/-! ### The haversine distance (`_calculate_distance_km`, source lines 39–46)

Modelled over the reals (the idealization of the float computation).  `R` is
6371.0 km. -/

noncomputable def radiansR (x : ℝ) : ℝ := x * Real.pi / 180

/-- `math.atan2`. -/
noncomputable def atan2R (y x : ℝ) : ℝ :=
  if 0 < x then Real.arctan (y / x)
  else if x < 0 then
    (if 0 ≤ y then Real.arctan (y / x) + Real.pi else Real.arctan (y / x) - Real.pi)
  else
    (if 0 < y then Real.pi / 2 else if y < 0 then -(Real.pi / 2) else 0)

/-- The intermediate `a` of the haversine formula (source line 44). -/
noncomputable def havA (lat1 lon1 lat2 lon2 : ℝ) : ℝ :=
  Real.sin (radiansR (lat2 - lat1) / 2) ^ 2 +
    Real.cos (radiansR lat1) * Real.cos (radiansR lat2) *
      Real.sin (radiansR (lon2 - lon1) / 2) ^ 2

/-- `GeoaddressProvider._calculate_distance_km` over the reals. -/
noncomputable def distanceKmR (lat1 lon1 lat2 lon2 : ℝ) : ℝ :=
  let a := havA lat1 lon1 lat2 lon2
  let c := 2 * atan2R (Real.sqrt a) (Real.sqrt (1 - a))
  6371.0 * c

/-- A mapping value that the dispatch of `_normalize_from_mapping` stores
verbatim: any non-string constant, or a string without a dot. -/
def storedVerbatim : PyVal → Bool
  | .str s => !hasDotCp s
  | _ => true

/-- The confidence contract: a returned value within [0,1] that carries at
most two decimals. -/
def conf01 : PRes ℚ → Bool
  | .ok v => decide (0 ≤ v ∧ v ≤ 1 ∧ round2 v = v)
  | .err _ => false

/-- The digit test of the heuristic, on the values it accepts (strings
iterate per character, dicts iterate their keys with `str.isdigit`). -/
def hasDigitVal : PyVal → Bool
  | .str s => s.any isDigitCp
  | .dict d => d.any (fun kv => !kv.1.isEmpty && kv.1.all isDigitCp)
  | _ => false

/-- Well-formedness of a feature for the importance fallback: either
`feature.get("importance")` is truthy, or `feature.get("properties", {})`
supports `.get` (is a dict).  Every real feature payload (a parsed JSON
object) satisfies this. -/
def featureOk : Option PyDict → Bool
  | Option.none => true
  | Option.some f => (pyGet f importanceK).truthy || (pyGetD f propertiesK (.dict [])).isDict

/-! ## Supporting lemmas -/

theorem ratFloor_le (x : ℚ) : ((x.floor : ℤ) : ℚ) ≤ x := Rat.le_floor.mp le_rfl

theorem lt_ratFloor_add_one (x : ℚ) : x < ((x.floor : ℤ) : ℚ) + 1 := by
  by_contra h
  push_neg at h
  have h2 : x.floor + 1 ≤ x.floor := Rat.le_floor.mpr (by push_cast; linarith)
  omega

theorem roundHalfEven_ge (x : ℚ) (n : ℤ) (h : (n : ℚ) ≤ x) : n ≤ roundHalfEven x := by
  have hf : n ≤ x.floor := Rat.le_floor.mpr h
  unfold roundHalfEven
  dsimp only
  split_ifs <;> omega

theorem roundHalfEven_le (x : ℚ) (n : ℤ) (h : x ≤ (n : ℚ)) : roundHalfEven x ≤ n := by
  have hfl : ((x.floor : ℤ) : ℚ) ≤ x := ratFloor_le x
  have hf : x.floor ≤ n := by
    by_contra hc
    push_neg at hc
    have : (n : ℚ) + 1 ≤ (x.floor : ℚ) := by exact_mod_cast Int.add_one_le_iff.mpr hc
    linarith
  have hkey : x.floor = n → x - ((x.floor : ℤ) : ℚ) < 1/2 := by
    intro he
    have hxn : x = (n : ℚ) := le_antisymm h (by rw [← he]; exact hfl)
    rw [he, hxn]
    norm_num
  unfold roundHalfEven
  dsimp only
  split_ifs with h1 h2 h3
  · exact hf
  · have : x.floor ≠ n := fun he => h1 (hkey he)
    omega
  · exact hf
  · have : x.floor ≠ n := fun he => h1 (hkey he)
    omega

theorem round2_le (x : ℚ) (n : ℤ) (h : x * 100 ≤ (n : ℚ)) : round2 x ≤ (n : ℚ) / 100 := by
  unfold round2
  have := roundHalfEven_le (x * 100) n h
  have hc : ((roundHalfEven (x * 100) : ℤ) : ℚ) ≤ (n : ℚ) := by exact_mod_cast this
  linarith

theorem round2_ge (x : ℚ) (n : ℤ) (h : (n : ℚ) ≤ x * 100) : (n : ℚ) / 100 ≤ round2 x := by
  unfold round2
  have := roundHalfEven_ge (x * 100) n h
  have hc : (n : ℚ) ≤ ((roundHalfEven (x * 100) : ℤ) : ℚ) := by exact_mod_cast this
  linarith

theorem roundHalfEven_intCast (n : ℤ) : roundHalfEven (n : ℚ) = n := by
  have hfl : ((n : ℚ)).floor = n := by
    have h1 : n ≤ ((n : ℚ)).floor := Rat.le_floor.mpr le_rfl
    have h2 : ((((n : ℚ)).floor : ℤ) : ℚ) ≤ (n : ℚ) := ratFloor_le _
    have h3 : (((n : ℚ)).floor : ℤ) ≤ n := by exact_mod_cast h2
    omega
  unfold roundHalfEven
  dsimp only
  rw [hfl]
  norm_num

theorem round2_round2 (x : ℚ) : round2 (round2 x) = round2 x := by
  unfold round2
  have : ((roundHalfEven (x * 100) : ℤ) : ℚ) / 100 * 100 = ((roundHalfEven (x * 100) : ℤ) : ℚ) := by
    field_simp
  rw [this, roundHalfEven_intCast]

/-! ### Association-list lemmas for the catalog-ordered builders -/

theorem build_map_fst {α β : Type} (l : List PyStr) (F : PyStr → Option α) (G : PyStr → α → β) :
    ((l.filterMap (fun k => (F k).map (fun x => (k, G k x)))).map Prod.fst)
      = l.filter (fun k => (F k).isSome) := by
  induction l with
  | nil => simp
  | cons a t ih => cases hF : F a <;> simp [hF, ih]

theorem lookupKV_build_of_not_mem {α β : Type} (l : List PyStr) (F : PyStr → Option α)
    (G : PyStr → α → β) (k : PyStr) (hk : k ∉ l) :
    lookupKV (l.filterMap (fun a => (F a).map (fun x => (a, G a x)))) k = Option.none := by
  induction l with
  | nil => simp [lookupKV]
  | cons a t ih =>
      have hak : a ≠ k := fun h => hk (h ▸ List.mem_cons_self a t)
      have hkt : k ∉ t := fun h => hk (List.mem_cons_of_mem a h)
      cases hF : F a with
      | none => simpa [hF] using ih hkt
      | some x => simpa [hF, lookupKV, hak] using ih hkt

theorem lookupKV_build_of_mem {α β : Type} (l : List PyStr) (F : PyStr → Option α)
    (G : PyStr → α → β) (k : PyStr) (hnd : l.Nodup) (hk : k ∈ l) :
    lookupKV (l.filterMap (fun a => (F a).map (fun x => (a, G a x)))) k
      = (F k).map (G k) := by
  induction l with
  | nil => simp at hk
  | cons a t ih =>
      have hnd2 : t.Nodup := (List.nodup_cons.mp hnd).2
      rcases List.mem_cons.mp hk with heq | hmem
      · subst heq
        have hkt : k ∉ t := (List.nodup_cons.mp hnd).1
        cases hF : F k with
        | none =>
            simpa [hF] using lookupKV_build_of_not_mem t F G k hkt
        | some x => simp [hF, lookupKV]
      · have hak : a ≠ k := by
          rintro rfl
          exact (List.nodup_cons.mp hnd).1 hmem
        cases hF : F a with
        | none => simpa [hF] using ih hnd2 hmem
        | some x => simpa [hF, lookupKV, hak] using ih hnd2 hmem

theorem fieldsCatalog_nodup : fieldsCatalog.Nodup := by decide

/-! ## Claim theorems -/

/-- C1 (counterexample): the claim says that with an empty query-components
mapping and the default weights the returned relevance is 0 for every
normalized result record.  At the empty result record it is 76.92 instead:
the empty query street and postcode ("" after `or ""`) compare equal to the
result's empty street and postcode, so the street and postcode weights are
awarded (5 of the eligible 6.5 points). -/
theorem c1_counterexample :
    calcRelevance (fun _ _ _ _ => 0) [] [] Option.none Option.none Option.none true
        = .ok (7692/100)
    ∧ (7692/100 : ℚ) ≠ 0 := by
  constructor
  · decide
  · decide

/-- C1 (amended): with an empty query-components mapping, the default weights
and no query coordinates, the relevance is 0 for every result record whose
`address_line1` and `postal_code` normalize to non-empty strings; if either
normalizes to empty, that component counts as a match against the empty query
and the relevance is positive. -/
theorem c1_empty_query_relevance_zero (dist : DistFn) (r : PyDict) (s1 s2 : PyStr)
    (h1 : normStrCmp (pyGetOr r line1K) = .ok s1) (hne1 : s1 ≠ [])
    (h2 : normStrCmp (pyGetOr r postK) = .ok s2) (hne2 : s2 ≠ []) :
    calcRelevance dist [] r Option.none Option.none Option.none true = .ok 0 := by
  have hq1 : normStrCmp (pyGetOr ([] : PyDict) line1K) = .ok [] := by decide
  have hq2 : normStrCmp (pyGetOr ([] : PyDict) postK) = .ok [] := by decide
  have hqc : firstTruthy ([] : PyDict) cityKeys = .str [] := by decide
  have hcc : canCalcDistance r Option.none Option.none true = false := by
    simp [canCalcDistance]
  have hscore : calcRelevanceScore [] r defaultWeights = .ok 0 := by
    unfold calcRelevanceScore
    rw [hq1, h1, hq2, h2, hqc]
    have e1 : (([] : PyStr) = s1) = False := by
      simp only [eq_iff_iff, iff_false]
      exact fun h => hne1 h.symm
    have e2 : (([] : PyStr) = s2) = False := by
      simp only [eq_iff_iff, iff_false]
      exact fun h => hne2 h.symm
    simp [e1, e2, PyVal.truthy]
  have hraw :
      relevanceRawScore dist [] r Option.none Option.none defaultWeights true = .ok 0 := by
    unfold relevanceRawScore
    rw [hscore]
    simp [hcc]
  have hmax : relevanceMaxScore r Option.none Option.none defaultWeights true = 13/2 := by
    unfold relevanceMaxScore
    rw [hcc]
    decide
  unfold calcRelevance
  simp only [Option.getD]
  rw [hraw]
  rw [hmax]
  norm_num
  decide

/-- C1 (witness for the amended theorem): a populated result record against
the empty query yields relevance 0. -/
theorem c1_empty_query_relevance_zero_witness :
    calcRelevance (fun _ _ _ _ => 0) []
      [(line1K, .str (cp "10 Main St")), (postK, .str (cp "75001"))]
      Option.none Option.none Option.none true = .ok 0 :=
  c1_empty_query_relevance_zero (fun _ _ _ _ => 0)
    [(line1K, .str (cp "10 Main St")), (postK, .str (cp "75001"))]
    (cp "10 main st") (cp "75001") (by decide) (by decide) (by decide) (by decide)

/-- C2 (code bug): the spec requires that no exception escape an adapter's
public operations and that with `raw=True` a network/parse failure yield
`[{"error": str(exc)}]`.  `geoapify.py` (like seven of the ten adapters)
never imports `requests`: with a configured API key, `search_addresses`
raises `NameError` in the `try` body, and evaluating the first `except`
clause (`requests.exceptions.RequestException`) raises `NameError` again,
which escapes to the caller.  Nominatim's `except Exception: return []`
additionally returns `[]` on failure even when `raw=True`, not an error
record. -/
theorem c2_failure_handling_code_bug :
    geoapifySearchAddresses true true = .raised "NameError: name requests is not defined"
    ∧ nameBound geoapifyGlobals "requests" = false
    ∧ nominatimSearchOnFailure true "Connection refused" = .ok []
    ∧ PyCallResult.ok ([] : List PyDict)
        ≠ .ok [[(cp "error", .str (cp "Connection refused"))]] := by
  refine ⟨?_, ?_, ?_, ?_⟩
  · decide
  · decide
  · decide
  · decide

/-- C3: whenever the importance signal resolves to a plain number `x`, the
confidence estimator computes `min(x * multiplier, 1.0)` and returns it
rounded to two decimals exactly when it is at least 0.3; otherwise it falls
through to the structural heuristic on the normalized record. -/
theorem c3_confidence_from_importance (n : PyVal) (f : Option PyDict) (k : Option PyStr)
    (m x : ℚ) (h : resolveImportance f k = .ok (.num x)) :
    calcConfidence n f k m =
      if 3/10 ≤ min (x * m) 1 then .ok (round2 (min (x * m) 1))
      else (heuristicConf (asConfDict n)).map round2 := by
  unfold calcConfidence
  rw [h]
  have hff : confFromImportance (.num x) m =
      (if 3/10 ≤ min (x * m) 1 then Option.some (round2 (min (x * m) 1)) else Option.none) := by
    unfold confFromImportance pyFloatOpt
    dsimp only
    split_ifs with hc
    · have h0 : (0 : ℚ) ≤ min (x * m) 1 := le_trans (by norm_num) hc
      rw [max_eq_right h0]
    · rfl
  simp only [PyVal.isNone, Bool.false_eq_true, if_false, hff]
  split_ifs <;> rfl

/-- C3 (witness): importance 0.4 at dotted key `rank.conf`, multiplier 2:
confidence is `round2 (0.8) = 0.8`. -/
theorem c3_confidence_from_importance_witness :
    calcConfidence (.dict []) (Option.some [(cp "rank", .dict [(cp "conf", .num (2/5))])])
        (Option.some (cp "rank.conf")) 2 =
      if 3/10 ≤ min ((2/5 : ℚ) * 2) 1 then .ok (round2 (min ((2/5 : ℚ) * 2) 1))
      else (heuristicConf (asConfDict (.dict []))).map round2 :=
  c3_confidence_from_importance (.dict [])
    (Option.some [(cp "rank", .dict [(cp "conf", .num (2/5))])])
    (Option.some (cp "rank.conf")) 2 (2/5) (by decide)

/-- C9: the mapping normalizer populates exactly the canonical fields present
in the mapping table, in catalog order; a callable is applied to the raw
payload, a string containing a dot is resolved as a dot-path (missing keys
or non-dict intermediates giving `None`), any other value is stored
verbatim; fields absent from the mapping (or not in the catalog) are absent
from the output. -/
theorem c9_mapping_normalizer (data : PyDict) (mapping : List (PyStr × MapSrc)) (f : PyStr)
    (g : PyDict → PyVal) (s : PyStr) (v : PyVal) :
    (normalizeFromMapping data mapping).map Prod.fst
        = fieldsCatalog.filter (fun k => (lookupKV mapping k).isSome)
    ∧ (f ∉ fieldsCatalog → lookupKV (normalizeFromMapping data mapping) f = Option.none)
    ∧ (lookupKV mapping f = Option.none →
        lookupKV (normalizeFromMapping data mapping) f = Option.none)
    ∧ (f ∈ fieldsCatalog → lookupKV mapping f = Option.some (.fn g) →
        lookupKV (normalizeFromMapping data mapping) f = Option.some (g data))
    ∧ (f ∈ fieldsCatalog → lookupKV mapping f = Option.some (.val (.str s)) →
        lookupKV (normalizeFromMapping data mapping) f
          = Option.some (if hasDotCp s then getNestedValue data s else .str s))
    ∧ (f ∈ fieldsCatalog → lookupKV mapping f = Option.some (.val v) →
        storedVerbatim v = true →
        lookupKV (normalizeFromMapping data mapping) f = Option.some v) := by
  have hbuild : ∀ k ∈ fieldsCatalog,
      lookupKV (normalizeFromMapping data mapping) k
        = (lookupKV mapping k).map (fun src => applyMapSrc data src) :=
    fun k hk => lookupKV_build_of_mem fieldsCatalog (lookupKV mapping)
      (fun _ src => applyMapSrc data src) k fieldsCatalog_nodup hk
  refine ⟨?_, ?_, ?_, ?_, ?_, ?_⟩
  · exact build_map_fst fieldsCatalog (lookupKV mapping) (fun _ src => applyMapSrc data src)
  · intro hf
    exact lookupKV_build_of_not_mem fieldsCatalog (lookupKV mapping)
      (fun _ src => applyMapSrc data src) f hf
  · intro hnone
    by_cases hf : f ∈ fieldsCatalog
    · rw [hbuild f hf, hnone]
      rfl
    · exact lookupKV_build_of_not_mem fieldsCatalog (lookupKV mapping)
        (fun _ src => applyMapSrc data src) f hf
  · intro hf hsome
    rw [hbuild f hf, hsome]
    rfl
  · intro hf hsome
    rw [hbuild f hf, hsome]
    rfl
  · intro hf hsome hverb
    rw [hbuild f hf, hsome]
    cases v with
    | str sv =>
        have : hasDotCp sv = false := by
          have := hverb
          unfold storedVerbatim at this
          simpa using this
        simp [applyMapSrc, Option.map, this]
    | none => rfl
    | num q => rfl
    | dict d => rfl

/-- C9 (witness): a mapping with a dotted path, a constant and a callable,
evaluated on a concrete payload. -/
theorem c9_mapping_normalizer_witness :
    (normalizeFromMapping [(cp "address", .dict [(cp "postcode", .str (cp "75001"))])]
        [(postK, .val (.str (cp "address.postcode"))), (cityK, .val (.str (cp "Paris"))),
         (latK, .fn (fun _ => .num 48))]).map Prod.fst
        = fieldsCatalog.filter
            (fun k => (lookupKV [(postK, MapSrc.val (.str (cp "address.postcode"))),
              (cityK, .val (.str (cp "Paris"))), (latK, .fn (fun _ => .num 48))] k).isSome)
    ∧ (postK ∉ fieldsCatalog →
        lookupKV (normalizeFromMapping [(cp "address", .dict [(cp "postcode", .str (cp "75001"))])]
          [(postK, .val (.str (cp "address.postcode"))), (cityK, .val (.str (cp "Paris"))),
           (latK, .fn (fun _ => .num 48))]) postK = Option.none)
    ∧ (lookupKV [(postK, MapSrc.val (.str (cp "address.postcode"))),
          (cityK, .val (.str (cp "Paris"))), (latK, .fn (fun _ => .num 48))] postK = Option.none →
        lookupKV (normalizeFromMapping [(cp "address", .dict [(cp "postcode", .str (cp "75001"))])]
          [(postK, .val (.str (cp "address.postcode"))), (cityK, .val (.str (cp "Paris"))),
           (latK, .fn (fun _ => .num 48))] ) postK = Option.none)
    ∧ (postK ∈ fieldsCatalog →
        lookupKV [(postK, MapSrc.val (.str (cp "address.postcode"))),
          (cityK, .val (.str (cp "Paris"))), (latK, .fn (fun _ => .num 48))] postK
            = Option.some (.fn (fun _ => .num 48)) →
        lookupKV (normalizeFromMapping [(cp "address", .dict [(cp "postcode", .str (cp "75001"))])]
          [(postK, .val (.str (cp "address.postcode"))), (cityK, .val (.str (cp "Paris"))),
           (latK, .fn (fun _ => .num 48))]) postK
            = Option.some ((fun _ => PyVal.num 48) [(cp "address", PyVal.dict [(cp "postcode", PyVal.str (cp "75001"))])]))
    ∧ (postK ∈ fieldsCatalog →
        lookupKV [(postK, MapSrc.val (.str (cp "address.postcode"))),
          (cityK, .val (.str (cp "Paris"))), (latK, .fn (fun _ => .num 48))] postK
            = Option.some (.val (.str (cp "address.postcode"))) →
        lookupKV (normalizeFromMapping [(cp "address", .dict [(cp "postcode", .str (cp "75001"))])]
          [(postK, .val (.str (cp "address.postcode"))), (cityK, .val (.str (cp "Paris"))),
           (latK, .fn (fun _ => .num 48))]) postK
            = Option.some (if hasDotCp (cp "address.postcode")
                then getNestedValue [(cp "address", .dict [(cp "postcode", .str (cp "75001"))])]
                       (cp "address.postcode")
                else .str (cp "address.postcode")))
    ∧ (postK ∈ fieldsCatalog →
        lookupKV [(postK, MapSrc.val (.str (cp "address.postcode"))),
          (cityK, .val (.str (cp "Paris"))), (latK, .fn (fun _ => .num 48))] postK
            = Option.some (.val (.str (cp "Paris"))) →
        storedVerbatim (.str (cp "Paris")) = true →
        lookupKV (normalizeFromMapping [(cp "address", .dict [(cp "postcode", .str (cp "75001"))])]
          [(postK, .val (.str (cp "address.postcode"))), (cityK, .val (.str (cp "Paris"))),
           (latK, .fn (fun _ => .num 48))]) postK = Option.some (.str (cp "Paris"))) :=
  c9_mapping_normalizer
    [(cp "address", .dict [(cp "postcode", .str (cp "75001"))])]
    [(postK, .val (.str (cp "address.postcode"))), (cityK, .val (.str (cp "Paris"))),
     (latK, .fn (fun _ => .num 48))]
    postK (fun _ => .num 48) (cp "address.postcode") (.str (cp "Paris"))

/-- C10: the field re-ordering step keeps exactly the input keys that appear
in the 23-entry field catalog, in catalog order, with values unchanged; any
other key is dropped. -/
theorem c10_field_ordering (n : PyDict) (f : PyStr) :
    (orderNormalizedFields n).map Prod.fst
        = fieldsCatalog.filter (fun k => (lookupKV n k).isSome)
    ∧ (f ∈ fieldsCatalog → lookupKV (orderNormalizedFields n) f = lookupKV n f)
    ∧ (f ∉ fieldsCatalog → lookupKV (orderNormalizedFields n) f = Option.none)
    ∧ fieldsCatalog.length = 23 := by
  refine ⟨?_, ?_, ?_, by decide⟩
  · exact build_map_fst fieldsCatalog (lookupKV n) (fun _ v => v)
  · intro hf
    have hb : lookupKV (orderNormalizedFields n) f = (lookupKV n f).map (fun v => v) :=
      lookupKV_build_of_mem fieldsCatalog (lookupKV n) (fun _ v => v) f
        fieldsCatalog_nodup hf
    rw [hb]
    cases lookupKV n f <;> rfl
  · intro hf
    exact lookupKV_build_of_not_mem fieldsCatalog (lookupKV n) (fun _ v => v) f hf

/-- C10 (witness): a record with a vendor-specific extra key, which is
dropped by the re-ordering. -/
theorem c10_field_ordering_witness :
    (orderNormalizedFields [(latK, .num 1), (cp "vendor_extra", .num 2), (line1K, .str [])]).map
        Prod.fst
        = fieldsCatalog.filter
            (fun k => (lookupKV [(latK, PyVal.num 1), (cp "vendor_extra", PyVal.num 2),
              (line1K, PyVal.str [])] k).isSome)
    ∧ (cp "vendor_extra" ∈ fieldsCatalog →
        lookupKV (orderNormalizedFields [(latK, .num 1), (cp "vendor_extra", .num 2),
          (line1K, .str [])]) (cp "vendor_extra")
          = lookupKV [(latK, PyVal.num 1), (cp "vendor_extra", PyVal.num 2),
              (line1K, PyVal.str [])] (cp "vendor_extra"))
    ∧ (cp "vendor_extra" ∉ fieldsCatalog →
        lookupKV (orderNormalizedFields [(latK, .num 1), (cp "vendor_extra", .num 2),
          (line1K, .str [])]) (cp "vendor_extra") = Option.none)
    ∧ fieldsCatalog.length = 23 :=
  c10_field_ordering [(latK, .num 1), (cp "vendor_extra", .num 2), (line1K, .str [])]
    (cp "vendor_extra")

/-- C5: for every completed relevance computation, the returned relevance is
`clamp(0, 100, score/max_score * 100)` rounded to two decimals when
`max_score > 0`, exactly 0 when `max_score = 0` (as with no query components
and empty weights), and always lies in [0, 100]. -/
theorem c5_relevance_clamped (dist : DistFn) (q r : PyDict) (qlat qlon : Option ℚ)
    (wOpt : Option Weights) (incl : Bool) (s v : ℚ)
    (hs : relevanceRawScore dist q r qlat qlon (wOpt.getD defaultWeights) incl = .ok s)
    (hv : calcRelevance dist q r qlat qlon wOpt incl = .ok v) :
    v = (if 0 < relevanceMaxScore r qlat qlon (wOpt.getD defaultWeights) incl
         then round2 (min 100 (max 0
           (s / relevanceMaxScore r qlat qlon (wOpt.getD defaultWeights) incl * 100)))
         else 0)
    ∧ (relevanceMaxScore r qlat qlon (wOpt.getD defaultWeights) incl = 0 → v = 0)
    ∧ 0 ≤ v ∧ v ≤ 100 := by
  have hun : calcRelevance dist q r qlat qlon wOpt incl
      = .ok (if 0 < relevanceMaxScore r qlat qlon (wOpt.getD defaultWeights) incl
             then round2 (min 100 (max 0
               (s / relevanceMaxScore r qlat qlon (wOpt.getD defaultWeights) incl * 100)))
             else 0) := by
    unfold calcRelevance
    dsimp only
    rw [hs]
  rw [hun] at hv
  have hveq : v = (if 0 < relevanceMaxScore r qlat qlon (wOpt.getD defaultWeights) incl
      then round2 (min 100 (max 0
        (s / relevanceMaxScore r qlat qlon (wOpt.getD defaultWeights) incl * 100)))
      else 0) := by
    cases hv
    rfl
  refine ⟨hveq, ?_, ?_, ?_⟩
  · intro hM
    rw [hveq, hM]
    norm_num
  · rw [hveq]
    split_ifs with hM
    · have h0 : (0 : ℚ) ≤ min 100 (max 0
          (s / relevanceMaxScore r qlat qlon (wOpt.getD defaultWeights) incl * 100)) :=
        le_min (by norm_num) (le_max_left 0 _)
      have := round2_ge (min 100 (max 0
        (s / relevanceMaxScore r qlat qlon (wOpt.getD defaultWeights) incl * 100))) 0
        (by push_cast; nlinarith)
      simpa using this
    · exact le_refl 0
  · rw [hveq]
    split_ifs with hM
    · have h100 : min 100 (max 0
          (s / relevanceMaxScore r qlat qlon (wOpt.getD defaultWeights) incl * 100)) ≤ 100 :=
        min_le_left _ _
      have := round2_le (min 100 (max 0
        (s / relevanceMaxScore r qlat qlon (wOpt.getD defaultWeights) incl * 100))) 10000
        (by push_cast; nlinarith)
      have h2 : ((10000 : ℤ) : ℚ) / 100 = 100 := by norm_num
      rw [h2] at this
      exact this
    · norm_num

/-- C5 (witness): no query components and empty weights: `max_score = 0` and
the relevance is exactly 0. -/
theorem c5_relevance_clamped_witness :
    (0 : ℚ) = (if 0 < relevanceMaxScore [] Option.none Option.none
          ((Option.some ([] : Weights)).getD defaultWeights) true
        then round2 (min 100 (max 0
          ((0 : ℚ) / relevanceMaxScore [] Option.none Option.none
            ((Option.some ([] : Weights)).getD defaultWeights) true * 100)))
        else 0)
    ∧ (relevanceMaxScore [] Option.none Option.none
          ((Option.some ([] : Weights)).getD defaultWeights) true = 0 → (0 : ℚ) = 0)
    ∧ (0 : ℚ) ≤ 0 ∧ (0 : ℚ) ≤ 100 :=
  c5_relevance_clamped (fun _ _ _ _ => 0) [] [] Option.none Option.none
    (Option.some []) true 0 0 (by decide) (by decide)

/-- C6 (counterexample): the claim says `max_score` includes the distance
weight only if the distance was evaluable.  With query coordinates given and
a result whose `latitude` is a (truthy, non-`None`) dict, `float()` fails and
the bonus is skipped — yet `max_score` was already incremented before the
`try`, so it is 7.5, not 6.5, and the returned relevance is 66.67 instead of
the 76.92 the claimed `max_score` would give. -/
theorem c6_counterexample :
    canCalcDistance [(latK, .dict []), (lonK, .num 2)] (Option.some 1) (Option.some 1) true
        = true
    ∧ pyFloatOpt (pyGet [(latK, .dict []), (lonK, .num 2)] latK) = Option.none
    ∧ relevanceMaxScore [(latK, .dict []), (lonK, .num 2)] (Option.some 1) (Option.some 1)
        defaultWeights true = 15/2
    ∧ (15/2 : ℚ)
        ≠ wget defaultWeights streetK + wget defaultWeights postcodeK + wget defaultWeights cityWK
    ∧ calcRelevance (fun _ _ _ _ => 0) [] [(latK, .dict []), (lonK, .num 2)]
        (Option.some 1) (Option.some 1) Option.none true = .ok (6667/100)
    ∧ round2 (min 100 (max 0 ((5 : ℚ) / (13/2) * 100))) = 7692/100
    ∧ (6667/100 : ℚ) ≠ 7692/100 := by
  refine ⟨by decide, by decide, by decide, by decide, by decide, by decide, by decide⟩

/-- C6 (amended): the distance bonus is computed only when `include_distance`
holds and both the query and the result carry non-`None` coordinates, and it
equals `distance_weight * (1 / (distance_km + 1))` when both coordinates
convert with `float()`; if the conversion fails the bonus is silently skipped
and contributes 0 — but `max_score` includes the distance weight whenever the
branch was entered, even when the distance was not evaluable. -/
theorem c6_distance_branch (dist : DistFn) (q r : PyDict) (qlat qlon : Option ℚ)
    (w : Weights) (incl : Bool) (base : ℚ)
    (hb : calcRelevanceScore q r w = .ok base) :
    relevanceRawScore dist q r qlat qlon w incl =
      .ok (base +
        (if canCalcDistance r qlat qlon incl then
          (match pyFloatOpt (pyGet r latK), pyFloatOpt (pyGet r lonK) with
           | Option.some la, Option.some lo =>
               wget w distanceK * (1 / (dist (qlat.getD 0) (qlon.getD 0) la lo + 1))
           | _, _ => 0)
         else 0))
    ∧ relevanceMaxScore r qlat qlon w incl
        = wget w streetK + wget w postcodeK + wget w cityWK +
            (if canCalcDistance r qlat qlon incl then wget w distanceK else 0)
    ∧ canCalcDistance r qlat qlon incl
        = (incl && qlat.isSome && qlon.isSome
            && !(pyGet r latK).isNone && !(pyGet r lonK).isNone) := by
  refine ⟨?_, rfl, rfl⟩
  unfold relevanceRawScore
  rw [hb]
  by_cases hc : canCalcDistance r qlat qlon incl = true
  · rcases hla : pyFloatOpt (pyGet r latK) with _ | la <;>
      rcases hlo : pyFloatOpt (pyGet r lonK) with _ | lo <;>
      simp [hc, hla, hlo]
  · have hc2 : canCalcDistance r qlat qlon incl = false := by
      revert hc
      cases canCalcDistance r qlat qlon incl <;> simp
    simp [hc2]

/-- C6 (witness for the amended theorem): the skip-on-failure instance — the
bonus contributes 0 but the distance weight is still in `max_score`. -/
theorem c6_distance_branch_witness :
    relevanceRawScore (fun _ _ _ _ => 0) [] [(latK, .dict []), (lonK, .num 2)]
        (Option.some 1) (Option.some 1) defaultWeights true =
      .ok (5 +
        (if canCalcDistance [(latK, .dict []), (lonK, .num 2)] (Option.some 1)
              (Option.some 1) true then
          (match pyFloatOpt (pyGet [(latK, .dict []), (lonK, .num 2)] latK),
               pyFloatOpt (pyGet [(latK, .dict []), (lonK, .num 2)] lonK) with
           | Option.some la, Option.some lo =>
               wget defaultWeights distanceK *
                 (1 / ((fun _ _ _ _ => (0 : ℚ)) ((Option.some (1 : ℚ)).getD 0)
                   ((Option.some (1 : ℚ)).getD 0) la lo + 1))
           | _, _ => 0)
         else 0))
    ∧ relevanceMaxScore [(latK, .dict []), (lonK, .num 2)] (Option.some 1) (Option.some 1)
        defaultWeights true
        = wget defaultWeights streetK + wget defaultWeights postcodeK
            + wget defaultWeights cityWK +
            (if canCalcDistance [(latK, .dict []), (lonK, .num 2)] (Option.some 1)
                (Option.some 1) true then wget defaultWeights distanceK else 0)
    ∧ canCalcDistance [(latK, .dict []), (lonK, .num 2)] (Option.some 1) (Option.some 1) true
        = (true && (Option.some (1 : ℚ)).isSome && (Option.some (1 : ℚ)).isSome
            && !(pyGet [(latK, .dict []), (lonK, .num 2)] latK).isNone
            && !(pyGet [(latK, .dict []), (lonK, .num 2)] lonK).isNone) :=
  c6_distance_branch (fun _ _ _ _ => 0) [] [(latK, .dict []), (lonK, .num 2)]
    (Option.some 1) (Option.some 1) defaultWeights true 5 (by decide)

theorem resolveImportance_no_err (feature : Option PyDict) (ikey : Option PyStr)
    (h2 : featureOk feature = true) (e : PyExc) :
    resolveImportance feature ikey ≠ .err e := by
  unfold resolveImportance
  cases hE : extractImportance feature ikey with
  | some v => exact nofun
  | none =>
      cases feature with
      | none => exact nofun
      | some f =>
          by_cases hf : f.isEmpty
          · simp [hf]
          · simp only [hf, if_false, Bool.false_eq_true]
            unfold fallbackImportance
            by_cases ht : (pyGet f importanceK).truthy
            · simp [ht]
            · have hd : (pyGetD f propertiesK (.dict [])).isDict = true := by
                unfold featureOk at h2
                simp only [Bool.or_eq_true] at h2
                rcases h2 with h2 | h2
                · exact absurd h2 ht
                · exact h2
              rcases hv : pyGetD f propertiesK (.dict []) with _ | s | q | d
              · simp [hv, PyVal.isDict] at hd
              · simp [hv, PyVal.isDict] at hd
              · simp [hv, PyVal.isDict] at hd
              · simp [ht, hv]

theorem confFromImportance_bounds (v : PyVal) (mult c : ℚ)
    (h : confFromImportance v mult = Option.some c) : 0 ≤ c ∧ c ≤ 1 ∧ round2 c = c := by
  have hc : ∃ x : ℚ, c = round2 (max 0 (min (x * mult) 1)) := by
    unfold confFromImportance at h
    rcases v with _ | s | q | d
    · simp [pyFloatOpt] at h
    · rcases hp : pyFloatOpt (.str s) with _ | x
      · rw [hp] at h
        simp at h
      · rw [hp] at h
        dsimp only at h
        split_ifs at h with hge
        exact ⟨x, by cases h; rfl⟩
    · rcases hp : pyFloatOpt (.num q) with _ | x
      · rw [hp] at h
        simp at h
      · rw [hp] at h
        dsimp only at h
        split_ifs at h with hge
        exact ⟨x, by cases h; rfl⟩
    · simp at h
  obtain ⟨x, rfl⟩ := hc
  set y := max 0 (min (x * mult) 1) with hy
  have h0 : (0 : ℚ) ≤ y := le_max_left 0 _
  have h1 : y ≤ 1 := max_le (by norm_num) (min_le_right _ 1)
  refine ⟨?_, ?_, round2_round2 y⟩
  · have := round2_ge y 0 (by push_cast; nlinarith)
    simpa using this
  · have := round2_le y 100 (by push_cast; nlinarith)
    have h2 : ((100 : ℤ) : ℚ) / 100 = 1 := by norm_num
    rw [h2] at this
    exact this

theorem heuristicConf_eval (m : PyDict) (hm : (pyGetOr m line1K).isNum = false) :
    heuristicConf m =
      .ok (if (pyGetOr m line1K).truthy then
              (if hasDigitVal (pyGetOr m line1K) then 9/10 else 7/10)
           else if (pyGetOr m cityK).truthy || (pyGetOr m postK).truthy then 1/2
           else 3/10) := by
  unfold heuristicConf
  dsimp only
  rcases hv : pyGetOr m line1K with _ | s | q | d
  · simp only [PyVal.truthy, Bool.false_eq_true, if_false]
    exact (apply_ite PRes.ok _ _ _).symm
  · by_cases ht : (PyVal.str s).truthy
    · by_cases hd : s.any isDigitCp <;>
        simp [ht, pyValAnyDigit, hasDigitVal, hd]
    · have ht2 : (PyVal.str s).truthy = false := by
        revert ht
        cases (PyVal.str s).truthy <;> simp
      simp only [ht2, Bool.false_eq_true, if_false]
      exact (apply_ite PRes.ok _ _ _).symm
  · simp [hv, PyVal.isNum] at hm
  · by_cases ht : (PyVal.dict d).truthy
    · by_cases hd : d.any (fun kv => !kv.1.isEmpty && kv.1.all isDigitCp) <;>
        simp [ht, pyValAnyDigit, hasDigitVal, hd]
    · have ht2 : (PyVal.dict d).truthy = false := by
        revert ht
        cases (PyVal.dict d).truthy <;> simp
      simp only [ht2, Bool.false_eq_true, if_false]
      exact (apply_ite PRes.ok _ _ _).symm

/-- C4: on well-typed inputs the confidence estimator always returns a value
in [0,1] carrying two decimals; with no importance signal the heuristic gives
exactly 0.9 (non-empty `address_line1` containing a digit), 0.7 (non-empty
`address_line1`, no digit), 0.5 (`city` or `postal_code` non-empty) and 0.3
otherwise, including for the empty record. -/
theorem c4_confidence_bounds (normalized : PyVal) (feature : Option PyDict)
    (ikey : Option PyStr) (mult : ℚ) (n : PyDict)
    (h1 : (pyGetOr (asConfDict normalized) line1K).isNum = false)
    (h2 : featureOk feature = true)
    (h3 : (pyGetOr n line1K).isNum = false) :
    conf01 (calcConfidence normalized feature ikey mult) = true
    ∧ calcConfidence (.dict n) Option.none Option.none 2 =
        .ok (if (pyGetOr n line1K).truthy then
                (if hasDigitVal (pyGetOr n line1K) then 9/10 else 7/10)
             else if (pyGetOr n cityK).truthy || (pyGetOr n postK).truthy then 1/2
             else 3/10) := by
  have hheur : ∀ m : PyDict, (pyGetOr m line1K).isNum = false →
      conf01 ((heuristicConf m).map round2) = true := by
    intro m hm
    rw [heuristicConf_eval m hm]
    dsimp only [PRes.map]
    split_ifs <;> decide
  constructor
  · cases hri : resolveImportance feature ikey with
    | err e => exact absurd hri (resolveImportance_no_err feature ikey h2 e)
    | ok imp =>
        unfold calcConfidence
        dsimp only
        rw [hri]
        by_cases hnone : imp.isNone
        · simp only [hnone, if_true]
          exact hheur (asConfDict normalized) h1
        · have hnone2 : imp.isNone = false := by
            revert hnone
            cases imp.isNone <;> simp
          simp only [hnone2, Bool.false_eq_true, if_false]
          cases hcf : confFromImportance imp mult with
          | none => exact hheur (asConfDict normalized) h1
          | some c =>
              obtain ⟨hb0, hb1, hbr⟩ := confFromImportance_bounds imp mult c hcf
              simp [conf01, hb0, hb1, hbr]
  · unfold calcConfidence
    have hr0 : resolveImportance Option.none Option.none = .ok .none := by decide
    rw [hr0]
    dsimp only
    simp only [PyVal.isNone, if_true]
    have ha : asConfDict (PyVal.dict n) = n := rfl
    rw [ha, heuristicConf_eval n h3]
    dsimp only [PRes.map]
    split_ifs <;> decide

/-- C4 (witness): `{"address_line1": "10 Main St"}` with no importance signal
gives 0.9, which is within bounds. -/
theorem c4_confidence_bounds_witness :
    conf01 (calcConfidence (.dict [(line1K, .str (cp "10 Main St"))]) Option.none
        Option.none 2) = true
    ∧ calcConfidence (.dict [(line1K, .str (cp "10 Main St"))]) Option.none Option.none 2 =
        .ok (if (pyGetOr [(line1K, PyVal.str (cp "10 Main St"))] line1K).truthy then
                (if hasDigitVal (pyGetOr [(line1K, PyVal.str (cp "10 Main St"))] line1K)
                 then 9/10 else 7/10)
             else if (pyGetOr [(line1K, PyVal.str (cp "10 Main St"))] cityK).truthy
                 || (pyGetOr [(line1K, PyVal.str (cp "10 Main St"))] postK).truthy then 1/2
             else 3/10) :=
  c4_confidence_bounds (.dict [(line1K, .str (cp "10 Main St"))]) Option.none Option.none 2
    [(line1K, .str (cp "10 Main St"))] (by decide) (by decide) (by decide)

theorem bool_eq_false {b : Bool} (h : ¬b = true) : b = false := by
  cases b with
  | false => rfl
  | true => exact absurd rfl h

theorem nfdCp_default (c : Nat) (h1 : c ≠ 224) (h2 : c ≠ 231) (h3 : c ≠ 233)
    (h4 : c ≠ 192) (h5 : c ≠ 199) (h6 : c ≠ 201) : nfdCp c = [c] := by
  unfold nfdCp
  split_ifs <;> first | rfl | (exfalso; omega)

theorem pyLowerCp_default (c : Nat) (h0 : ¬(65 ≤ c ∧ c ≤ 90)) (h4 : c ≠ 192)
    (h5 : c ≠ 199) (h6 : c ≠ 201) : pyLowerCp c = c := by
  unfold pyLowerCp
  split_ifs
  rfl

theorem lower_nfd_stable (c d : Nat) (hd : d ∈ nfdCp (pyLowerCp c))
    (hmn : isMnCp d = false) : pyLowerCp d = d ∧ nfdCp d = [d] := by
  by_cases hAZ : 65 ≤ c ∧ c ≤ 90
  · have hl : pyLowerCp c = c + 32 := by
      unfold pyLowerCp
      rw [if_pos hAZ]
    rw [hl] at hd
    have hn : nfdCp (c + 32) = [c + 32] :=
      nfdCp_default _ (by omega) (by omega) (by omega) (by omega) (by omega) (by omega)
    rw [hn] at hd
    simp at hd
    subst hd
    exact ⟨pyLowerCp_default _ (by omega) (by omega) (by omega) (by omega), hn⟩
  · by_cases h192 : c = 192
    · subst h192
      have hl : pyLowerCp 192 = 224 := by decide
      have hn : nfdCp 224 = [97, 768] := by decide
      rw [hl, hn] at hd
      simp at hd
      rcases hd with rfl | rfl
      · exact ⟨by decide, by decide⟩
      · exact absurd hmn (by decide)
    · by_cases h199 : c = 199
      · subst h199
        have hl : pyLowerCp 199 = 231 := by decide
        have hn : nfdCp 231 = [99, 807] := by decide
        rw [hl, hn] at hd
        simp at hd
        rcases hd with rfl | rfl
        · exact ⟨by decide, by decide⟩
        · exact absurd hmn (by decide)
      · by_cases h201 : c = 201
        · subst h201
          have hl : pyLowerCp 201 = 233 := by decide
          have hn : nfdCp 233 = [101, 769] := by decide
          rw [hl, hn] at hd
          simp at hd
          rcases hd with rfl | rfl
          · exact ⟨by decide, by decide⟩
          · exact absurd hmn (by decide)
        · have hl : pyLowerCp c = c := pyLowerCp_default c hAZ h192 h199 h201
          rw [hl] at hd
          by_cases e1 : c = 224
          · subst e1
            have hn : nfdCp 224 = [97, 768] := by decide
            rw [hn] at hd
            simp at hd
            rcases hd with rfl | rfl
            · exact ⟨by decide, by decide⟩
            · exact absurd hmn (by decide)
          · by_cases e2 : c = 231
            · subst e2
              have hn : nfdCp 231 = [99, 807] := by decide
              rw [hn] at hd
              simp at hd
              rcases hd with rfl | rfl
              · exact ⟨by decide, by decide⟩
              · exact absurd hmn (by decide)
            · by_cases e3 : c = 233
              · subst e3
                have hn : nfdCp 233 = [101, 769] := by decide
                rw [hn] at hd
                simp at hd
                rcases hd with rfl | rfl
                · exact ⟨by decide, by decide⟩
                · exact absurd hmn (by decide)
              · have hn : nfdCp c = [c] := nfdCp_default c e1 e2 e3 h192 h199 h201
                rw [hn] at hd
                simp at hd
                subst hd
                exact ⟨hl, hn⟩

theorem mem_joinSp : ∀ (ps : List PyStr) (d : Nat), d ∈ joinSp ps →
    d = 32 ∨ ∃ p ∈ ps, d ∈ p
  | [], d, h => by simp [joinSp] at h
  | [p], d, h => by
      refine Or.inr ⟨p, by simp, ?_⟩
      simpa [joinSp] using h
  | p :: p2 :: ps, d, h => by
      simp only [joinSp, List.mem_append, List.mem_cons] at h
      rcases h with h | h | h
      · exact Or.inr ⟨p, List.mem_cons_self p _, h⟩
      · exact Or.inl h
      · rcases mem_joinSp (p2 :: ps) d h with h32 | ⟨q, hq, hdq⟩
        · exact Or.inl h32
        · exact Or.inr ⟨q, List.mem_cons_of_mem _ hq, hdq⟩

theorem splitWsAux_chars (C : Nat → Prop) :
    ∀ (s acc : PyStr), (∀ e ∈ acc, C e) → (∀ e ∈ s, isWsCp e = false → C e) →
      ∀ p ∈ splitWsAux s acc, ∀ d ∈ p, C d
  | [], acc, hacc, _, p, hp, d, hd => by
      unfold splitWsAux at hp
      split_ifs at hp with he
      · simp at hp
      · simp at hp
        subst hp
        exact hacc d (List.mem_reverse.mp hd)
  | c :: s, acc, hacc, hs, p, hp, d, hd => by
      unfold splitWsAux at hp
      by_cases hw : isWsCp c = true
      · rw [if_pos hw] at hp
        by_cases hae : acc.isEmpty = true
        · rw [if_pos hae] at hp
          exact splitWsAux_chars C s [] (by simp)
            (fun e he hwe => hs e (List.mem_cons_of_mem _ he) hwe) p hp d hd
        · rw [if_neg hae] at hp
          rcases List.mem_cons.mp hp with rfl | hp2
          · exact hacc d (List.mem_reverse.mp hd)
          · exact splitWsAux_chars C s [] (by simp)
              (fun e he hwe => hs e (List.mem_cons_of_mem _ he) hwe) p hp2 d hd
      · rw [if_neg hw] at hp
        refine splitWsAux_chars C s (c :: acc) ?_ 
          (fun e he hwe => hs e (List.mem_cons_of_mem _ he) hwe) p hp d hd
        intro e he
        rcases List.mem_cons.mp he with rfl | he2
        · exact hs e (List.mem_cons_self e s) (bool_eq_false hw)
        · exact hacc e he2

theorem map_fix {f : Nat → Nat} : ∀ {l : PyStr}, (∀ a ∈ l, f a = a) → l.map f = l
  | [], _ => rfl
  | a :: t, h => by
      have h1 : f a = a := h a (List.mem_cons_self a t)
      have h2 : t.map f = t := map_fix (fun x hx => h x (List.mem_cons_of_mem a hx))
      simp [h1, h2]

theorem flatten_singletons : ∀ (l : PyStr), (l.map (fun d => [d])).flatten = l
  | [] => rfl
  | a :: t => by simp [flatten_singletons t]

theorem normStrCmp_chars (s : PyStr) (d : Nat)
    (hd : d ∈ stripMn (nfdStr (collapseWs (lowerStr s)))) :
    pyLowerCp d = d ∧ nfdCp d = [d] ∧ isMnCp d = false := by
  unfold stripMn at hd
  rw [List.mem_filter] at hd
  obtain ⟨hd1, hd2⟩ := hd
  have hmn : isMnCp d = false := by
    revert hd2
    cases isMnCp d <;> simp
  unfold nfdStr at hd1
  rw [List.mem_flatten] at hd1
  obtain ⟨l, hl, hdl⟩ := hd1
  rw [List.mem_map] at hl
  obtain ⟨e, he, rfl⟩ := hl
  rcases mem_joinSp (pySplitWs (lowerStr s)) e he with h32 | ⟨p, hp, hep⟩
  · subst h32
    have h32n : nfdCp 32 = [32] := by decide
    rw [h32n] at hdl
    simp at hdl
    subst hdl
    exact ⟨by decide, by decide, by decide⟩
  · have hform : ∃ c0, e = pyLowerCp c0 := by
      refine splitWsAux_chars (fun x => ∃ c0, x = pyLowerCp c0) (lowerStr s) [] (by simp)
        ?_ p hp e hep
      intro x hx _
      unfold lowerStr at hx
      rw [List.mem_map] at hx
      obtain ⟨c0, _, rfl⟩ := hx
      exact ⟨c0, rfl⟩
    obtain ⟨c0, rfl⟩ := hform
    obtain ⟨hldd, hnd⟩ := lower_nfd_stable c0 d hdl hmn
    exact ⟨hldd, hnd, hmn⟩

theorem map_congr_mem {α β : Type} {f g : α → β} :
    ∀ {l : List α}, (∀ a ∈ l, f a = g a) → l.map f = l.map g
  | [], _ => rfl
  | a :: t, h => by
      have h1 : f a = g a := h a (List.mem_cons_self a t)
      have h2 : t.map f = t.map g := map_congr_mem (fun x hx => h x (List.mem_cons_of_mem a hx))
      simp [h1, h2]

/-- C7 (counterexample): the claim says normalization is idempotent for every
string.  On `"a ◌́ b"` (a combining acute accent standing alone between
spaces) the first pass leaves a double space after stripping the mark, which
a second pass collapses: the results differ. -/
theorem c7_counterexample :
    normStrCmp (.str [97, 32, 769, 32, 98]) = .ok [97, 32, 32, 98]
    ∧ normStrCmp (.str [97, 32, 32, 98]) = .ok [97, 32, 98]
    ∧ [97, 32, 32, 98] ≠ ([97, 32, 98] : PyStr) := by
  refine ⟨by decide, by decide, by decide⟩

/-- C7 (amended): normalization returns the empty string on `None` or empty
input, is case- and diacritic-insensitive (lowercase, whitespace collapse,
NFD, combining-mark stripping), and is idempotent on every input whose
normalized form needs no further whitespace collapsing — which fails only
when a stripped mark leaves a stray double/leading/trailing space, as in the
counterexample. -/
theorem c7_normalize_idempotent (s t : PyStr)
    (h : normStrCmp (.str s) = .ok t) (hc : collapseWs t = t) :
    normStrCmp (.str t) = .ok t
    ∧ normStrCmp PyVal.none = .ok []
    ∧ normStrCmp (.str []) = .ok []
    ∧ normStrCmp (.str (cp "Café  de Paris")) = normStrCmp (.str (cp "CAFE DE PARIS"))
    ∧ normStrCmp (.str (cp "Café  de Paris")) = .ok (cp "cafe de paris") := by
  refine ⟨?_, by decide, by decide, by decide, by decide⟩
  by_cases hs0 : s.isEmpty = true
  · have hsnil : s = [] := by
      cases s with
      | nil => rfl
      | cons a t2 => simp at hs0
    subst hsnil
    have he : normStrCmp (.str []) = .ok [] := by decide
    rw [he] at h
    cases h
    exact he
  · have ht : (PyVal.str s).truthy = true := by
      simp only [PyVal.truthy]
      rw [bool_eq_false hs0]
      rfl
    have hT : t = stripMn (nfdStr (collapseWs (lowerStr s))) := by
      unfold normStrCmp at h
      rw [ht] at h
      simp at h
      exact h.symm
    have hstab : ∀ d ∈ t, pyLowerCp d = d ∧ nfdCp d = [d] ∧ isMnCp d = false := by
      intro d hd
      exact normStrCmp_chars s d (hT ▸ hd)
    by_cases ht0 : t.isEmpty = true
    · have htnil : t = [] := by
        cases t with
        | nil => rfl
        | cons a t2 => simp at ht0
      subst htnil
      decide
    · have htt : (PyVal.str t).truthy = true := by
        simp only [PyVal.truthy]
        rw [bool_eq_false ht0]
        rfl
      unfold normStrCmp
      rw [htt]
      simp only [Bool.not_true, Bool.false_eq_true, if_false]
      have h1 : lowerStr t = t := map_fix (fun a ha => (hstab a ha).1)
      have h2 : nfdStr t = t := by
        unfold nfdStr
        have hm : t.map nfdCp = t.map (fun d => [d]) :=
          map_congr_mem (fun a ha => (hstab a ha).2.1)
        rw [hm, flatten_singletons]
      have h3 : stripMn t = t := by
        unfold stripMn
        apply List.filter_eq_self.mpr
        intro a ha
        simp [(hstab a ha).2.2]
      rw [h1, hc, h2, h3]

/-- C7 (witness for the amended theorem): normalizing the already-normalized
`"cafe de paris"` returns it unchanged. -/
theorem c7_normalize_idempotent_witness :
    normStrCmp (.str (cp "cafe de paris")) = .ok (cp "cafe de paris")
    ∧ normStrCmp PyVal.none = .ok []
    ∧ normStrCmp (.str []) = .ok []
    ∧ normStrCmp (.str (cp "Café  de Paris")) = normStrCmp (.str (cp "CAFE DE PARIS"))
    ∧ normStrCmp (.str (cp "Café  de Paris")) = .ok (cp "cafe de paris") :=
  c7_normalize_idempotent (cp "Café  de Paris") (cp "cafe de paris") (by decide) (by decide)

theorem havA_symm (a b c d : ℝ) : havA a b c d = havA c d a b := by
  unfold havA radiansR
  have h1 : (a - c) * Real.pi / 180 / 2 = -((c - a) * Real.pi / 180 / 2) := by ring
  have h2 : (b - d) * Real.pi / 180 / 2 = -((d - b) * Real.pi / 180 / 2) := by ring
  rw [h1, h2, Real.sin_neg, Real.sin_neg]
  ring

theorem havA_self (a b : ℝ) : havA a b a b = 0 := by
  unfold havA radiansR
  simp

/-- C8: the great-circle distance of `_calculate_distance_km` (haversine with
Earth radius 6371.0, on the real-valued model) is symmetric in its two
coordinate pairs and returns 0 for identical coordinates. -/
theorem c8_distance_symmetric_zero (a b c d : ℝ) :
    distanceKmR a b c d = distanceKmR c d a b ∧ distanceKmR a b a b = 0 := by
  constructor
  · unfold distanceKmR
    rw [havA_symm a b c d]
  · unfold distanceKmR
    rw [havA_self]
    have h1 : Real.sqrt 0 = 0 := Real.sqrt_zero
    have h2 : Real.sqrt (1 - 0) = 1 := by
      norm_num
    have h3 : atan2R 0 1 = 0 := by
      unfold atan2R
      rw [if_pos one_pos]
      simp
    dsimp only
    rw [h1, h2, h3]
    ring
